import Mathlib

/-!
Shallow embedding of the asynchronous job-processing subsystem of
Auralis-Transcriptor: the `InMemoryQueue` class and the `QueueService`
wiring in `src/backend/src/services/queueService.js`.

Modelling conventions:
* `this.jobs` (a JS array used with `push`/`shift`) is a `List Job`,
  oldest first.
* `this.processing` (a JS `Set` of ids) is a duplicate-free `List Nat`.
* Every pending `setTimeout` callback that will eventually insert a job
  into `this.jobs` is a `Timer` in the state: `addJob` schedules one for a
  positive `delay` (its callback pushes the job and emits `job-added`),
  and `retryJob` schedules one for a retry (its callback only pushes the
  job).  A scheduler step fires a pending timer.
* Events emitted through the `EventEmitter` base class are accumulated in
  `events : List Event`, oldest first.
* JavaScript numbers appearing here (ids, attempt counters, delays in
  milliseconds) are small non-negative integers in the source, so they
  are modelled as `Nat`.
* `async`/`await`: the registered `process-job` listener in
  `QueueService.start` is an `async` function, and `EventEmitter.emit`
  invokes listeners synchronously, discarding any promise a listener
  returns.  Hence `await this.processJob(job)` in the worker can only
  observe a synchronous throw from a listener; the eventual rejection of
  an `async` listener is never observed by the worker and becomes an
  unhandled promise rejection, recorded in `unhandledRejections`.
* Wall-clock fields of a job record (`createdAt`, `lastAttemptAt`) play
  no role in any behaviour considered here and are omitted.
-/

/-- JavaScript `a || b` where `a` is an optional number: the default `b` is
used when `a` is absent (`undefined`/`null`) or equal to `0`, because `0` is
falsy in JavaScript. -/
def jsOrDefault : Option Nat → Nat → Nat
  | some n, d => if n = 0 then d else n
  | none, d => d

/-- A job record, as constructed by `InMemoryQueue.addJob` and mutated by
`InMemoryQueue.retryJob`. -/
structure Job where
  id : Nat
  jobType : String
  data : String
  attempts : Nat
  maxAttempts : Nat
  delay : Nat
  lastError : Option String
deriving Repr, DecidableEq

/-- The argument of `InMemoryQueue.addJob`: the caller-supplied job
description, with the optional fields optional. -/
structure JobSpec where
  id : Option Nat
  jobType : String
  data : String
  maxAttempts : Option Nat
  delay : Option Nat
deriving Repr, DecidableEq

/-- Events emitted on the queue's `EventEmitter`.  The payloads mirror the
`emit` calls in the source: `job-added` and `process-job` carry the whole
job, `job-processing` carries the worker id and the job, `job-completed`
carries the id, `job-failed` carries id and error, `job-failed-permanently`
carries the job and the error.  The `jobRetry` constructor exists so that a
`job-retry` event is expressible; no operation of the source ever emits
it. -/
inductive Event where
  | jobAdded (job : Job)
  | jobProcessing (workerId : Nat) (job : Job)
  | processJobEvt (job : Job)
  | jobCompleted (jobId : Nat)
  | jobFailed (jobId : Nat) (error : String)
  | jobRetry (jobId : Nat) (error : String) (nextAttempt : Nat) (delayMs : Nat)
  | jobFailedPermanently (job : Job) (error : String)
deriving Repr, DecidableEq

/-- Which `setTimeout` callback a pending timer stands for. -/
inductive TimerKind where
  | addDelayed
  | retryRequeue
deriving Repr, DecidableEq

/-- A pending `setTimeout` whose callback will insert `job` into
`this.jobs` after `delayMs` milliseconds. -/
structure Timer where
  kind : TimerKind
  delayMs : Nat
  job : Job
deriving Repr, DecidableEq

/-- The mutable state of one `InMemoryQueue` instance, together with the
trace of emitted events and of unhandled promise rejections. -/
structure QueueState where
  jobs : List Job
  processing : List Nat
  timers : List Timer
  isRunning : Bool
  events : List Event
  unhandledRejections : List String
  nextId : Nat
deriving Repr, DecidableEq

/-- The state of a freshly constructed `InMemoryQueue`. -/
def initState : QueueState :=
  { jobs := [], processing := [], timers := [], isRunning := false,
    events := [], unhandledRejections := [], nextId := 1 }

/-- Insertion into the `processing` set (`Set.prototype.add`): a no-op when
the id is already present. -/
def setAdd (x : Nat) (s : List Nat) : List Nat :=
  if x ∈ s then s else s ++ [x]

/-- Removal from the `processing` set (`Set.prototype.delete`). -/
def setDelete (x : Nat) (s : List Nat) : List Nat :=
  s.filter (fun y => y ≠ x)

/-- The job record built at the top of `InMemoryQueue.addJob`:
`id` is `jobData.id || Date.now().toString()` (the fallback modelled by a
fresh id), `attempts` starts at `0`, `maxAttempts` is
`jobData.maxAttempts || 3` and `delay` is `jobData.delay || 0`. -/
def mkJob (spec : JobSpec) (freshId : Nat) : Job :=
  { id := jsOrDefault spec.id freshId
    jobType := spec.jobType
    data := spec.data
    attempts := 0
    maxAttempts := jsOrDefault spec.maxAttempts 3
    delay := jsOrDefault spec.delay 0
    lastError := none }

/-- `InMemoryQueue.addJob`: build the record; when `job.delay > 0` schedule
a `setTimeout` whose callback pushes the job and emits `job-added`,
otherwise push the job and emit `job-added` now.  Returns the job id. -/
def addJob (spec : JobSpec) (st : QueueState) : QueueState × Nat :=
  let job := mkJob spec st.nextId
  let st := { st with nextId := st.nextId + 1 }
  if 0 < job.delay then
    ({ st with timers := st.timers ++ [⟨TimerKind.addDelayed, job.delay, job⟩] }, job.id)
  else
    ({ st with jobs := st.jobs ++ [job],
               events := st.events ++ [Event.jobAdded job] }, job.id)

/-- Firing one pending `setTimeout` callback: the delayed `addJob` callback
pushes the job and emits `job-added`; the `retryJob` callback only pushes
the job. -/
def fireTimer (t : Timer) (st : QueueState) : QueueState :=
  match t.kind with
  | TimerKind.addDelayed =>
      { st with jobs := st.jobs ++ [t.job], events := st.events ++ [Event.jobAdded t.job] }
  | TimerKind.retryRequeue =>
      { st with jobs := st.jobs ++ [t.job] }

/-- `InMemoryQueue.getJob`: return `null` when `this.jobs` is empty,
otherwise `shift` the oldest job off the array and add its id to
`this.processing`. -/
def getJob (st : QueueState) : QueueState × Option Job :=
  match st.jobs with
  | [] => (st, none)
  | job :: rest =>
      ({ st with jobs := rest, processing := setAdd job.id st.processing }, some job)

/-- `InMemoryQueue.completeJob`: drop the id from `this.processing` and
emit `job-completed`. -/
def completeJob (jobId : Nat) (st : QueueState) : QueueState :=
  { st with processing := setDelete jobId st.processing,
            events := st.events ++ [Event.jobCompleted jobId] }

/-- `InMemoryQueue.failJob`: drop the id from `this.processing` and emit
`job-failed`.  No code path of the worker ever calls it. -/
def failJob (jobId : Nat) (error : String) (st : QueueState) : QueueState :=
  { st with processing := setDelete jobId st.processing,
            events := st.events ++ [Event.jobFailed jobId error] }

/-- The capped exponential backoff of `InMemoryQueue.retryJob`:
`Math.min(1000 * Math.pow(2, attempts), 30000)`. -/
def backoffDelay (attempts : Nat) : Nat :=
  min (1000 * 2 ^ attempts) 30000

/-- `InMemoryQueue.retryJob`: increment `job.attempts`, record the error in
`job.lastError`; when `attempts < maxAttempts` set `job.delay` to the
backoff and schedule a `setTimeout` that pushes the job back (emitting no
event), otherwise emit `job-failed-permanently`; finally drop the id from
`this.processing`. -/
def retryJob (job : Job) (error : String) (st : QueueState) : QueueState :=
  let job' : Job := { job with attempts := job.attempts + 1, lastError := some error }
  let st' :=
    if job'.attempts < job'.maxAttempts then
      let d := backoffDelay job'.attempts
      { st with timers := st.timers ++ [⟨TimerKind.retryRequeue, d, { job' with delay := d }⟩] }
    else
      { st with events := st.events ++ [Event.jobFailedPermanently job' error] }
  { st' with processing := setDelete job'.id st'.processing }

/-- `InMemoryQueue.start` (state part): set `isRunning`; a second call
while running is a no-op. -/
def startQ (st : QueueState) : QueueState :=
  if st.isRunning then st else { st with isRunning := true }

/-- `InMemoryQueue.stop`: clear `isRunning` (and the poll timers of the
worker loops, which hold no job and are not part of the state). -/
def stopQ (st : QueueState) : QueueState :=
  { st with isRunning := false }

/-- The result shape of `InMemoryQueue.getStats` (the `concurrency` and
`workers` fields echo configuration and are omitted). -/
structure Stats where
  queueLength : Nat
  processing : Nat
  isRunning : Bool
deriving Repr, DecidableEq

/-- `InMemoryQueue.getStats`: `queueLength` is `this.jobs.length`,
`processing` is `this.processing.size`. -/
def getStats (st : QueueState) : Stats :=
  { queueLength := st.jobs.length,
    processing := st.processing.length,
    isRunning := st.isRunning }

/-- First half of one iteration of the worker loop body (`processJob` inside
`InMemoryQueue.startWorker`), up to and including the call
`await this.processJob(job)` being issued: return immediately when the pool
is not running; otherwise dequeue, and on a job emit `job-processing` and
`process-job` (the emission performed by `InMemoryQueue.processJob`). -/
def workerDequeue (workerId : Nat) (st : QueueState) : QueueState × Option Job :=
  if st.isRunning = false then (st, none)
  else
    match getJob st with
    | (st1, none) => (st1, none)
    | (st1, some job) =>
        ({ st1 with events := st1.events ++
            [Event.jobProcessing workerId job, Event.processJobEvt job] }, some job)

/-- Second half of one iteration of the worker loop body: `outcome` is what
`await this.processJob(job)` did as observed by the worker — `ok` when no
listener threw synchronously, `error` when one did (caught by the inner
`catch`).  On `ok` the worker calls `completeJob`, on `error` it calls
`retryJob`. -/
def workerFinish (job : Job) (outcome : Except String Unit) (st : QueueState) : QueueState :=
  match outcome with
  | Except.ok _ => completeJob job.id st
  | Except.error e => retryJob job e st

/-- One whole iteration of the worker loop body, with the observed outcome
of `await this.processJob(job)` given as a function of the job (listeners
on `process-job` are arbitrary at the `InMemoryQueue` level). -/
def workerStep (workerId : Nat) (outcome : Job → Except String Unit) (st : QueueState) : QueueState :=
  match workerDequeue workerId st with
  | (st1, none) => st1
  | (st1, some job) => workerFinish job (outcome job) st1

/-- Settlement of the `async` listener that `QueueService.start` registers
on `process-job`: for a `transcription` job it awaits
`TranscriptionService.processTranscription` (an external call, modelled by
the parameter `transcribe`); for any other job type the body does nothing
and the promise resolves. -/
def registeredListener (transcribe : String → Except String Unit) (job : Job) :
    Except String Unit :=
  if job.jobType = "transcription" then transcribe job.data else Except.ok ()

/-- One whole iteration of the worker loop body under the listener wiring
of `QueueService.start`.  The listener is an `async` function, so
`EventEmitter.emit` discards the promise it returns and
`await this.processJob(job)` observes no failure: the worker always reaches
`completeJob`, and a rejected settlement of the listener body becomes an
unhandled promise rejection. -/
def workerStepService (workerId : Nat) (transcribe : String → Except String Unit)
    (st : QueueState) : QueueState :=
  match workerDequeue workerId st with
  | (st1, none) => st1
  | (st1, some job) =>
      let st2 :=
        match registeredListener transcribe job with
        | Except.ok _ => st1
        | Except.error e =>
            { st1 with unhandledRejections := st1.unhandledRejections ++ [e] }
      completeJob job.id st2

/-- One atomic step of the whole system: an `addJob` call, a pending timer
firing, one worker iteration (at the `InMemoryQueue` level or under the
`QueueService.start` wiring), or a `start`/`stop` call. -/
inductive Step : QueueState → QueueState → Prop where
  | add (spec : JobSpec) (st : QueueState) : Step st (addJob spec st).1
  | fire (st : QueueState) (t : Timer) (pre post : List Timer)
      (h : st.timers = pre ++ t :: post) :
      Step st (fireTimer t { st with timers := pre ++ post })
  | work (w : Nat) (outcome : Job → Except String Unit) (st : QueueState) :
      Step st (workerStep w outcome st)
  | workService (w : Nat) (transcribe : String → Except String Unit) (st : QueueState) :
      Step st (workerStepService w transcribe st)
  | startStep (st : QueueState) : Step st (startQ st)
  | stopStep (st : QueueState) : Step st (stopQ st)

/-- The states reachable from a freshly constructed queue. -/
inductive Reachable : QueueState → Prop where
  | base : Reachable initState
  | step {st st' : QueueState} : Reachable st → Step st st' → Reachable st'

example : (jsOrDefault (some 0) 3) = 3 := by decide
example : (mkJob ⟨none, "transcription", "t1", none, none⟩ 7).maxAttempts = 3 := by decide
example : backoffDelay 1 = 2000 ∧ backoffDelay 2 = 4000 ∧ backoffDelay 5 = 30000 := by decide

/-! Concrete specimens used by counterexamples and witnesses. -/

/-- A transcription job description with every optional field supplied. -/
def specTrans : JobSpec := ⟨some 10, "transcription", "t-1", some 3, none⟩

/-- A job description whose type has no registered handler. -/
def specEmail : JobSpec := ⟨some 11, "email", "e-1", some 3, none⟩

/-- A transcription job description carrying a positive delay. -/
def specDelayed : JobSpec := ⟨some 12, "transcription", "d-1", some 3, some 5000⟩

/-- The job record `addJob specTrans` constructs from a fresh queue. -/
def jobT : Job := mkJob specTrans 1

/-- The job record `addJob specEmail` constructs from a fresh queue. -/
def jobE : Job := mkJob specEmail 1

/-- A transcription handler whose promise always rejects. -/
def transcribeBoom : String → Except String Unit := fun _ => Except.error "boom"

/-- C1. The spec says a handler failure is caught by the worker and routed
through the retry logic, with no `job-completed` event.  In the code the
registered `process-job` listener is an `async` function whose promise
`EventEmitter.emit` discards, so the worker never observes the rejection:
processing a transcription job whose handler rejects with `boom` publishes
`job-completed`, schedules no retry, emits no `job-failed-permanently`, and
leaves the rejection unhandled. -/
theorem claim1_async_rejection_completes :
    (workerStepService 0 transcribeBoom (addJob specTrans (startQ initState)).1).events =
      [Event.jobAdded jobT, Event.jobProcessing 0 jobT, Event.processJobEvt jobT,
       Event.jobCompleted 10] ∧
    (workerStepService 0 transcribeBoom (addJob specTrans (startQ initState)).1).timers = [] ∧
    (workerStepService 0 transcribeBoom (addJob specTrans (startQ initState)).1).jobs = [] ∧
    (workerStepService 0 transcribeBoom (addJob specTrans (startQ initState)).1).unhandledRejections =
      ["boom"] := by
  decide

/-- C2, counterexample. The claim says a dequeued job with no registered
handler suffers an immediate permanent failure (a `job-failed-permanently`
event, one attempt consumed, no completion).  In the code the registered
listener ignores any type other than `transcription` and resolves, so the
job is completed: the whole event trace ends in `job-completed`, contains
no `job-failed-permanently`, and no retry is scheduled. -/
theorem claim2_counterexample :
    (workerStepService 0 transcribeBoom (addJob specEmail (startQ initState)).1).events =
      [Event.jobAdded jobE, Event.jobProcessing 0 jobE, Event.processJobEvt jobE,
       Event.jobCompleted 11] ∧
    (workerStepService 0 transcribeBoom (addJob specEmail (startQ initState)).1).timers = [] ∧
    (workerStepService 0 transcribeBoom (addJob specEmail (startQ initState)).1).unhandledRejections =
      [] := by
  decide

/-- C2, amended. For every dequeued job whose type has no registered
handler, the worker under the `QueueService.start` wiring treats it as a
successful no-op: it publishes `job-processing`, `process-job` and then
`job-completed`, consumes no attempt (the record is dropped unchanged), and
neither re-enqueues nor permanently fails the job. -/
theorem claim2_no_handler_completes (w : Nat) (transcribe : String → Except String Unit)
    (st : QueueState) (job : Job) (rest : List Job)
    (hrun : st.isRunning = true) (hjobs : st.jobs = job :: rest)
    (hty : job.jobType ≠ "transcription") :
    (workerStepService w transcribe st).events =
      st.events ++ [Event.jobProcessing w job, Event.processJobEvt job,
                    Event.jobCompleted job.id] ∧
    (workerStepService w transcribe st).jobs = rest ∧
    (workerStepService w transcribe st).timers = st.timers ∧
    (workerStepService w transcribe st).unhandledRejections = st.unhandledRejections := by
  simp [workerStepService, workerDequeue, getJob, registeredListener, completeJob,
        hrun, hjobs, hty]

/-- C2, witness: the amended statement at the concrete `email` job. -/
theorem claim2_witness :
    (workerStepService 0 transcribeBoom (addJob specEmail (startQ initState)).1).events =
      (addJob specEmail (startQ initState)).1.events ++
        [Event.jobProcessing 0 jobE, Event.processJobEvt jobE, Event.jobCompleted jobE.id] ∧
    (workerStepService 0 transcribeBoom (addJob specEmail (startQ initState)).1).jobs = [] ∧
    (workerStepService 0 transcribeBoom (addJob specEmail (startQ initState)).1).timers =
      (addJob specEmail (startQ initState)).1.timers ∧
    (workerStepService 0 transcribeBoom (addJob specEmail (startQ initState)).1).unhandledRejections =
      (addJob specEmail (startQ initState)).1.unhandledRejections :=
  claim2_no_handler_completes 0 transcribeBoom (addJob specEmail (startQ initState)).1
    jobE [] (by decide) (by decide) (by decide)

/-- C3, counterexample. The claim says every transient handler failure
publishes a `job-retry` event.  In the code `retryJob` only logs the retry:
on a transient failure (here first failure of a job with `maxAttempts = 3`)
the delayed re-enqueue is scheduled but the event trace stays empty — no
`job-retry` (and no `job-failed`) event is ever emitted. -/
theorem claim3_counterexample :
    (retryJob jobT "boom" initState).events = [] ∧
    (retryJob jobT "boom" initState).timers =
      [⟨TimerKind.retryRequeue, 2000,
        { jobT with attempts := 1, lastError := some "boom", delay := 2000 }⟩] := by
  decide

/-- C3, amended. On every transient handler failure (attempts still below
`maxAttempts` after incrementing), no event at all is published: `retryJob`
schedules the delayed re-enqueue carrying the backoff delay and leaves the
event trace unchanged. -/
theorem claim3_transient_retry_silent (job : Job) (e : String) (st : QueueState)
    (h : job.attempts + 1 < job.maxAttempts) :
    (retryJob job e st).events = st.events ∧
    (retryJob job e st).timers = st.timers ++
      [⟨TimerKind.retryRequeue, backoffDelay (job.attempts + 1),
        { job with attempts := job.attempts + 1, lastError := some e,
                   delay := backoffDelay (job.attempts + 1) }⟩] := by
  simp [retryJob, h]

/-- C3, witness: the amended statement at the first failure of the concrete
transcription job. -/
theorem claim3_witness :
    (retryJob jobT "boom" initState).events = initState.events ∧
    (retryJob jobT "boom" initState).timers = initState.timers ++
      [⟨TimerKind.retryRequeue, backoffDelay 1,
        { jobT with attempts := 1, lastError := some "boom", delay := backoffDelay 1 }⟩] :=
  claim3_transient_retry_silent jobT "boom" initState (by decide)

/-! Invariant machinery for C4: every job held by the queue (eligible in
`jobs` or pending inside a timer) satisfies `attempts ≤ maxAttempts`. -/

/-- Every job in `jobs` and every job inside a pending timer satisfies
`attempts ≤ maxAttempts`. -/
def BoundedAttempts (st : QueueState) : Prop :=
  (∀ j ∈ st.jobs, j.attempts ≤ j.maxAttempts) ∧
  (∀ t ∈ st.timers, t.job.attempts ≤ t.job.maxAttempts)

lemma bounded_addJob (spec : JobSpec) (st : QueueState) (h : BoundedAttempts st) :
    BoundedAttempts (addJob spec st).1 := by
  obtain ⟨hj, ht⟩ := h
  constructor
  · intro j hjm
    by_cases hd : 0 < (mkJob spec st.nextId).delay
    · simp [addJob, hd] at hjm
      exact hj j hjm
    · simp [addJob, hd] at hjm
      rcases hjm with hjm | rfl
      · exact hj j hjm
      · simp [mkJob]
  · intro t htm
    by_cases hd : 0 < (mkJob spec st.nextId).delay
    · simp [addJob, hd] at htm
      rcases htm with htm | rfl
      · exact ht t htm
      · simp [mkJob]
    · simp [addJob, hd] at htm
      exact ht t htm

lemma bounded_fireTimer (t : Timer) (st : QueueState)
    (hjob : t.job.attempts ≤ t.job.maxAttempts) (h : BoundedAttempts st) :
    BoundedAttempts (fireTimer t st) := by
  obtain ⟨hj, ht⟩ := h
  cases hk : t.kind
  case addDelayed =>
    constructor
    · intro j hjm
      simp [fireTimer, hk] at hjm
      rcases hjm with hjm | rfl
      · exact hj j hjm
      · exact hjob
    · intro tt htm
      simp [fireTimer, hk] at htm
      exact ht tt htm
  case retryRequeue =>
    constructor
    · intro j hjm
      simp [fireTimer, hk] at hjm
      rcases hjm with hjm | rfl
      · exact hj j hjm
      · exact hjob
    · intro tt htm
      simp [fireTimer, hk] at htm
      exact ht tt htm

lemma bounded_getJob (st : QueueState) (h : BoundedAttempts st) :
    BoundedAttempts (getJob st).1 := by
  obtain ⟨hj, ht⟩ := h
  cases hjobs : st.jobs with
  | nil =>
      constructor
      · intro j hjm
        simp [getJob, hjobs] at hjm
      · intro t htm
        simp [getJob, hjobs] at htm
        exact ht t htm
  | cons a rest =>
      constructor
      · intro j hjm
        simp [getJob, hjobs] at hjm
        exact hj j (hjobs ▸ List.mem_cons_of_mem a hjm)
      · intro t htm
        simp [getJob, hjobs] at htm
        exact ht t htm

lemma bounded_completeJob (jobId : Nat) (st : QueueState) (h : BoundedAttempts st) :
    BoundedAttempts (completeJob jobId st) := by
  obtain ⟨hj, ht⟩ := h
  exact ⟨fun j hjm => hj j (by simpa [completeJob] using hjm),
         fun t htm => ht t (by simpa [completeJob] using htm)⟩

lemma bounded_retryJob (job : Job) (e : String) (st : QueueState) (h : BoundedAttempts st) :
    BoundedAttempts (retryJob job e st) := by
  obtain ⟨hj, ht⟩ := h
  by_cases hlt : job.attempts + 1 < job.maxAttempts
  · constructor
    · intro j hjm
      simp [retryJob, hlt] at hjm
      exact hj j hjm
    · intro t htm
      simp [retryJob, hlt] at htm
      rcases htm with htm | rfl
      · exact ht t htm
      · simp
        omega
  · constructor
    · intro j hjm
      simp [retryJob, hlt] at hjm
      exact hj j hjm
    · intro t htm
      simp [retryJob, hlt] at htm
      exact ht t htm

lemma bounded_workerFinish (job : Job) (outcome : Except String Unit) (st : QueueState)
    (h : BoundedAttempts st) : BoundedAttempts (workerFinish job outcome st) := by
  cases outcome with
  | ok u => exact bounded_completeJob job.id st h
  | error e => exact bounded_retryJob job e st h

lemma bounded_workerDequeue (w : Nat) (st : QueueState) (h : BoundedAttempts st) :
    BoundedAttempts (workerDequeue w st).1 := by
  by_cases hrun : st.isRunning = false
  · simpa [workerDequeue, hrun] using h
  · have hg := bounded_getJob st h
    cases hget : getJob st with
    | mk st1 oj =>
        rw [hget] at hg
        cases oj with
        | none => simpa [workerDequeue, hrun, hget] using hg
        | some job =>
            obtain ⟨hj, ht⟩ := hg
            constructor
            · intro j hjm
              exact hj j (by simpa [workerDequeue, hrun, hget] using hjm)
            · intro t htm
              exact ht t (by simpa [workerDequeue, hrun, hget] using htm)

lemma bounded_workerStep (w : Nat) (outcome : Job → Except String Unit) (st : QueueState)
    (h : BoundedAttempts st) : BoundedAttempts (workerStep w outcome st) := by
  have hd := bounded_workerDequeue w st h
  cases hget : workerDequeue w st with
  | mk st1 oj =>
      rw [hget] at hd
      cases oj with
      | none => simpa [workerStep, hget] using hd
      | some job =>
          have := bounded_workerFinish job (outcome job) st1 hd
          simpa [workerStep, hget] using this

lemma bounded_workerStepService (w : Nat) (transcribe : String → Except String Unit)
    (st : QueueState) (h : BoundedAttempts st) :
    BoundedAttempts (workerStepService w transcribe st) := by
  have hd := bounded_workerDequeue w st h
  cases hget : workerDequeue w st with
  | mk st1 oj =>
      rw [hget] at hd
      cases oj with
      | none => simpa [workerStepService, hget] using hd
      | some job =>
          obtain ⟨hj, ht⟩ := hd
          cases hr : registeredListener transcribe job with
          | ok u =>
              constructor
              · intro j hjm
                exact hj j (by simpa [workerStepService, hget, hr, completeJob] using hjm)
              · intro t htm
                exact ht t (by simpa [workerStepService, hget, hr, completeJob] using htm)
          | error e =>
              constructor
              · intro j hjm
                exact hj j (by simpa [workerStepService, hget, hr, completeJob] using hjm)
              · intro t htm
                exact ht t (by simpa [workerStepService, hget, hr, completeJob] using htm)

lemma bounded_step {st st' : QueueState} (hs : Step st st') (h : BoundedAttempts st) :
    BoundedAttempts st' := by
  cases hs with
  | add spec st => exact bounded_addJob spec st h
  | fire st t pre post hpre =>
      have hjob : t.job.attempts ≤ t.job.maxAttempts := h.2 t (by simp [hpre])
      have hsub : BoundedAttempts { st with timers := pre ++ post } := by
        obtain ⟨hj, ht⟩ := h
        refine ⟨hj, fun tt htm => ht tt ?_⟩
        rw [hpre]
        simp at htm ⊢
        tauto
      exact bounded_fireTimer t _ hjob hsub
  | work w outcome st => exact bounded_workerStep w outcome st h
  | workService w transcribe st => exact bounded_workerStepService w transcribe st h
  | startStep st =>
      by_cases hr : st.isRunning <;> simpa [startQ, hr, BoundedAttempts] using h
  | stopStep st => simpa [stopQ, BoundedAttempts] using h

lemma reachable_bounded {st : QueueState} (h : Reachable st) : BoundedAttempts st := by
  induction h with
  | base => exact ⟨by simp [initState], by simp [initState]⟩
  | step _ hs ih => exact bounded_step hs ih

/-- C4. For every reachable queue state, every job held by the queue —
eligible in `jobs` or pending-delay inside a timer — satisfies
`attempts ≤ maxAttempts`; a failure-driven re-enqueue carries exactly
`attempts + 1`; and once `maxAttempts ≤ attempts + 1` the job is not
re-enqueued: `retryJob` schedules nothing and emits the terminal
`job-failed-permanently` event instead. -/
theorem claim4_attempts_invariant :
    (∀ st, Reachable st →
       (∀ j ∈ st.jobs, j.attempts ≤ j.maxAttempts) ∧
       (∀ t ∈ st.timers, t.job.attempts ≤ t.job.maxAttempts)) ∧
    (∀ job e st, job.attempts + 1 < job.maxAttempts →
       (retryJob job e st).timers = st.timers ++
         [⟨TimerKind.retryRequeue, backoffDelay (job.attempts + 1),
           { job with attempts := job.attempts + 1, lastError := some e,
                      delay := backoffDelay (job.attempts + 1) }⟩] ∧
       (retryJob job e st).jobs = st.jobs) ∧
    (∀ job e st, job.maxAttempts ≤ job.attempts + 1 →
       (retryJob job e st).timers = st.timers ∧
       (retryJob job e st).jobs = st.jobs ∧
       (retryJob job e st).events = st.events ++
         [Event.jobFailedPermanently
           { job with attempts := job.attempts + 1, lastError := some e } e]) := by
  refine ⟨fun st h => reachable_bounded h, ?_, ?_⟩
  · intro job e st h
    simp [retryJob, h]
  · intro job e st h
    have h' : ¬ (job.attempts + 1 < job.maxAttempts) := by omega
    simp [retryJob, h']

/-- A job record two failed attempts away from its third, final one. -/
def jobF : Job := { jobT with attempts := 2 }

/-- C4, witness: the invariant at the initial state, the `+1` re-enqueue at
the concrete first failure, and the terminal branch at the concrete third
failure. -/
theorem claim4_witness :
    ((∀ j ∈ initState.jobs, j.attempts ≤ j.maxAttempts) ∧
     (∀ t ∈ initState.timers, t.job.attempts ≤ t.job.maxAttempts)) ∧
    ((retryJob jobT "e" initState).timers = initState.timers ++
       [⟨TimerKind.retryRequeue, backoffDelay (jobT.attempts + 1),
         { jobT with attempts := jobT.attempts + 1, lastError := some "e",
                     delay := backoffDelay (jobT.attempts + 1) }⟩] ∧
     (retryJob jobT "e" initState).jobs = initState.jobs) ∧
    ((retryJob jobF "e" initState).timers = initState.timers ∧
     (retryJob jobF "e" initState).jobs = initState.jobs ∧
     (retryJob jobF "e" initState).events = initState.events ++
       [Event.jobFailedPermanently
         { jobF with attempts := jobF.attempts + 1, lastError := some "e" } "e"]) :=
  ⟨claim4_attempts_invariant.1 initState Reachable.base,
   claim4_attempts_invariant.2.1 jobT "e" initState (by decide),
   claim4_attempts_invariant.2.2 jobF "e" initState (by decide)⟩

/-- The record carried by the timer scheduled at the first failure of
`jobT`. -/
def jobR1 : Job := { jobT with attempts := 1, lastError := some "e1", delay := 2000 }

/-- The record carried by the timer scheduled at the second failure. -/
def jobR2 : Job := { jobR1 with attempts := 2, lastError := some "e2", delay := 4000 }

/-- The queue state after the first two failures of `jobT`. -/
def stR2 : QueueState := retryJob jobR1 "e2" (retryJob jobT "e1" initState)

/-- C5. The retry delay is `min (1000 * 2 ^ attempts) 30000` milliseconds
with `attempts` counted after the increment; concretely, for a job with
`maxAttempts = 3` whose handler always fails the scheduled delays are
`2000` then `4000`, and the third failure emits `job-failed-permanently`
and schedules no further delay. -/
theorem claim5_backoff_formula :
    (∀ job e st, job.attempts + 1 < job.maxAttempts →
       (retryJob job e st).timers = st.timers ++
         [⟨TimerKind.retryRequeue, min (1000 * 2 ^ (job.attempts + 1)) 30000,
           { job with attempts := job.attempts + 1, lastError := some e,
                      delay := min (1000 * 2 ^ (job.attempts + 1)) 30000 }⟩]) ∧
    ((retryJob jobT "e1" initState).timers =
       [⟨TimerKind.retryRequeue, 2000, jobR1⟩] ∧
     stR2.timers =
       [⟨TimerKind.retryRequeue, 2000, jobR1⟩, ⟨TimerKind.retryRequeue, 4000, jobR2⟩] ∧
     (retryJob jobR2 "e3" stR2).timers = stR2.timers ∧
     (retryJob jobR2 "e3" stR2).events =
       [Event.jobFailedPermanently { jobR2 with attempts := 3, lastError := some "e3" } "e3"]) := by
  constructor
  · intro job e st h
    simp [retryJob, backoffDelay, h]
  · decide

/-- C5, witness: the backoff formula applied at the concrete first
failure. -/
theorem claim5_witness :
    (retryJob jobT "e1" initState).timers = initState.timers ++
      [⟨TimerKind.retryRequeue, min (1000 * 2 ^ (jobT.attempts + 1)) 30000,
        { jobT with attempts := jobT.attempts + 1, lastError := some "e1",
                    delay := min (1000 * 2 ^ (jobT.attempts + 1)) 30000 }⟩] :=
  claim5_backoff_formula.1 jobT "e1" initState (by decide)

/-- C6. `getJob` returns `none` on an empty queue; it removes and returns
the head of `jobs` (FIFO: with `A` ahead of `B` it returns `A`, then `B`);
two undelayed enqueues append their records in call order, so the earlier
enqueue is dequeued first; and a record present at most once is never
handed out twice — after it is returned it no longer occurs in `jobs`. -/
theorem claim6_dequeue_fifo :
    (∀ st, st.jobs = [] → getJob st = (st, none)) ∧
    (∀ st A B rest, st.jobs = A :: B :: rest →
       (getJob st).2 = some A ∧ (getJob (getJob st).1).2 = some B) ∧
    (∀ st specA specB, jsOrDefault specA.delay 0 = 0 → jsOrDefault specB.delay 0 = 0 →
       (addJob specB (addJob specA st).1).1.jobs =
         st.jobs ++ [mkJob specA st.nextId, mkJob specB (st.nextId + 1)]) ∧
    (∀ st j, (getJob st).2 = some j → st.jobs.count j ≤ 1 →
       ((getJob st).1).jobs.count j = 0) := by
  refine ⟨?_, ?_, ?_, ?_⟩
  · intro st h
    simp [getJob, h]
  · intro st A B rest h
    constructor <;> simp [getJob, h]
  · intro st specA specB hA hB
    simp [addJob, mkJob, hA, hB]
  · intro st j hget hcount
    cases hjobs : st.jobs with
    | nil => simp [getJob, hjobs] at hget
    | cons a rest =>
        simp [getJob, hjobs] at hget ⊢
        subst hget
        rw [hjobs, List.count_cons_self] at hcount
        omega

/-- A queue state holding the two concrete specimen jobs in order. -/
def stTwo : QueueState := { initState with jobs := [jobT, jobE] }

/-- C6, witness: the four parts at concrete states — the empty queue, the
two-job queue, two concrete undelayed enqueues, and the dequeue of the
once-present head record. -/
theorem claim6_witness :
    getJob initState = (initState, none) ∧
    ((getJob stTwo).2 = some jobT ∧ (getJob (getJob stTwo).1).2 = some jobE) ∧
    (addJob specEmail (addJob specTrans initState).1).1.jobs =
      initState.jobs ++ [mkJob specTrans initState.nextId,
                         mkJob specEmail (initState.nextId + 1)] ∧
    ((getJob stTwo).1).jobs.count jobT = 0 :=
  ⟨claim6_dequeue_fifo.1 initState (by decide),
   claim6_dequeue_fifo.2.1 stTwo jobT jobE [] (by decide),
   claim6_dequeue_fifo.2.2.1 initState specTrans specEmail (by decide) (by decide),
   claim6_dequeue_fifo.2.2.2 stTwo jobT (by decide) (by decide)⟩

/-- C7, counterexample. The claim says `job-added` is published on every
enqueue including the retry re-enqueue.  In the code the retry callback
only does `this.jobs.push(job)`: after the first failure of the concrete
job, firing the scheduled retry timer puts the job back into `jobs` while
the event trace stays empty — no `job-added` is ever emitted. -/
theorem claim7_counterexample :
    (retryJob jobT "boom" initState).timers =
      [⟨TimerKind.retryRequeue, 2000,
        { jobT with attempts := 1, lastError := some "boom", delay := 2000 }⟩] ∧
    (fireTimer
        ⟨TimerKind.retryRequeue, 2000,
         { jobT with attempts := 1, lastError := some "boom", delay := 2000 }⟩
        { retryJob jobT "boom" initState with timers := [] }).jobs =
      [{ jobT with attempts := 1, lastError := some "boom", delay := 2000 }] ∧
    (fireTimer
        ⟨TimerKind.retryRequeue, 2000,
         { jobT with attempts := 1, lastError := some "boom", delay := 2000 }⟩
        { retryJob jobT "boom" initState with timers := [] }).events = [] := by
  decide

/-- C7, amended. `job-added` is published on every enqueue performed by
`addJob` — immediately for an undelayed job, and when the delayed-insertion
timer fires for a delayed one — but the re-enqueue performed for a retry
inserts the job without publishing `job-added`. -/
theorem claim7_job_added_on_addJob (spec : JobSpec) (t : Timer) (st st' st'' : QueueState)
    (hdel : jsOrDefault spec.delay 0 = 0)
    (hadd : t.kind = TimerKind.addDelayed) :
    ((addJob spec st).1.events = st.events ++ [Event.jobAdded (mkJob spec st.nextId)]) ∧
    ((fireTimer t st').events = st'.events ++ [Event.jobAdded t.job] ∧
     (fireTimer t st').jobs = st'.jobs ++ [t.job]) ∧
    (∀ tr : Timer, tr.kind = TimerKind.retryRequeue →
       (fireTimer tr st'').events = st''.events ∧
       (fireTimer tr st'').jobs = st''.jobs ++ [tr.job]) := by
  refine ⟨?_, ?_, ?_⟩
  · simp [addJob, mkJob, hdel]
  · constructor <;> simp [fireTimer, hadd]
  · intro tr htr
    constructor <;> simp [fireTimer, htr]

/-- C7, witness: the amended statement at the concrete undelayed enqueue, a
concrete delayed-insertion timer and the concrete retry timer. -/
theorem claim7_witness :
    ((addJob specTrans initState).1.events =
       initState.events ++ [Event.jobAdded (mkJob specTrans initState.nextId)]) ∧
    ((fireTimer ⟨TimerKind.addDelayed, 5000, jobT⟩ initState).events =
       initState.events ++ [Event.jobAdded jobT] ∧
     (fireTimer ⟨TimerKind.addDelayed, 5000, jobT⟩ initState).jobs =
       initState.jobs ++ [jobT]) ∧
    (∀ tr : Timer, tr.kind = TimerKind.retryRequeue →
       (fireTimer tr initState).events = initState.events ∧
       (fireTimer tr initState).jobs = initState.jobs ++ [tr.job]) :=
  claim7_job_added_on_addJob specTrans ⟨TimerKind.addDelayed, 5000, jobT⟩
    initState initState initState (by decide) (by decide)

/-- C8, counterexample. The claim says `getStats().queueLength` counts
eligible jobs plus jobs still waiting out a delay.  In the code
`queueLength` is `this.jobs.length` and a delayed job lives only in its
pending `setTimeout`: enqueueing the concrete job with delay `5000` leaves
`queueLength` at `0` although one job is pending-delay, so
`queueLength = eligible + pending-delay` fails. -/
theorem claim8_counterexample :
    (getStats (addJob specDelayed initState).1).queueLength = 0 ∧
    (addJob specDelayed initState).1.timers.length = 1 ∧
    ¬ ((getStats (addJob specDelayed initState).1).queueLength =
        (addJob specDelayed initState).1.jobs.length +
        (addJob specDelayed initState).1.timers.length) := by
  decide

/-- C8, amended. `getStats().queueLength` counts only the currently
eligible jobs: a job enqueued with a positive delay leaves `queueLength`
unchanged while its delay is pending, and `queueLength` grows by one when
the pending insertion fires. -/
theorem claim8_queueLength_eligible_only (spec : JobSpec) (t : Timer) (st st' : QueueState)
    (hdel : 0 < jsOrDefault spec.delay 0) :
    (getStats (addJob spec st).1).queueLength = (getStats st).queueLength ∧
    (addJob spec st).1.timers = st.timers ++
      [⟨TimerKind.addDelayed, jsOrDefault spec.delay 0, mkJob spec st.nextId⟩] ∧
    (getStats (fireTimer t st')).queueLength = (getStats st').queueLength + 1 := by
  refine ⟨?_, ?_, ?_⟩
  · simp [addJob, mkJob, getStats, hdel]
  · simp [addJob, mkJob, hdel]
  · cases hk : t.kind <;> simp [fireTimer, getStats, hk]

/-- C8, witness: the amended statement at the concrete delayed enqueue and
a concrete timer firing. -/
theorem claim8_witness :
    (getStats (addJob specDelayed initState).1).queueLength =
      (getStats initState).queueLength ∧
    (addJob specDelayed initState).1.timers = initState.timers ++
      [⟨TimerKind.addDelayed, jsOrDefault specDelayed.delay 0,
        mkJob specDelayed initState.nextId⟩] ∧
    (getStats (fireTimer ⟨TimerKind.addDelayed, 5000, jobT⟩ initState)).queueLength =
      (getStats initState).queueLength + 1 :=
  claim8_queueLength_eligible_only specDelayed ⟨TimerKind.addDelayed, 5000, jobT⟩
    initState initState (by decide)

/-- C9. After `stop()` no worker iteration dequeues: with `isRunning`
cleared the loop body returns before touching the queue and changes
nothing.  A handler invocation already in flight finishes against the
stopped state and its outcome is still published: on success
`job-completed` is emitted, on a transient failure the delayed re-enqueue
is scheduled, and on a final failure `job-failed-permanently` is
emitted. -/
theorem claim9_stop_semantics :
    (∀ w st, st.isRunning = false → workerDequeue w st = (st, none)) ∧
    (∀ w outcome st, st.isRunning = false → workerStep w outcome st = st) ∧
    (∀ job st, (workerFinish job (Except.ok ()) (stopQ st)).events =
       (stopQ st).events ++ [Event.jobCompleted job.id]) ∧
    (∀ job e st, job.attempts + 1 < job.maxAttempts →
       (workerFinish job (Except.error e) (stopQ st)).timers =
         (stopQ st).timers ++
           [⟨TimerKind.retryRequeue, backoffDelay (job.attempts + 1),
             { job with attempts := job.attempts + 1, lastError := some e,
                        delay := backoffDelay (job.attempts + 1) }⟩]) ∧
    (∀ job e st, job.maxAttempts ≤ job.attempts + 1 →
       (workerFinish job (Except.error e) (stopQ st)).events =
         (stopQ st).events ++
           [Event.jobFailedPermanently
             { job with attempts := job.attempts + 1, lastError := some e } e]) := by
  refine ⟨?_, ?_, ?_, ?_, ?_⟩
  · intro w st h
    simp [workerDequeue, h]
  · intro w outcome st h
    simp [workerStep, workerDequeue, h]
  · intro job st
    simp [workerFinish, completeJob]
  · intro job e st h
    simp [workerFinish, retryJob, h]
  · intro job e st h
    have h' : ¬ (job.attempts + 1 < job.maxAttempts) := by omega
    simp [workerFinish, retryJob, h']

/-- C9, witness: the five parts at the stopped concrete queue, for the
concrete in-flight job succeeding, failing transiently, and failing for
the last time. -/
theorem claim9_witness :
    workerDequeue 0 initState = (initState, none) ∧
    workerStep 0 (fun _ => Except.ok ()) initState = initState ∧
    (workerFinish jobT (Except.ok ()) (stopQ initState)).events =
      (stopQ initState).events ++ [Event.jobCompleted jobT.id] ∧
    (workerFinish jobT (Except.error "boom") (stopQ initState)).timers =
      (stopQ initState).timers ++
        [⟨TimerKind.retryRequeue, backoffDelay (jobT.attempts + 1),
          { jobT with attempts := jobT.attempts + 1, lastError := some "boom",
                      delay := backoffDelay (jobT.attempts + 1) }⟩] ∧
    (workerFinish jobF (Except.error "boom") (stopQ initState)).events =
      (stopQ initState).events ++
        [Event.jobFailedPermanently
          { jobF with attempts := jobF.attempts + 1, lastError := some "boom" } "boom"] :=
  ⟨claim9_stop_semantics.1 0 initState (by decide),
   claim9_stop_semantics.2.1 0 (fun _ => Except.ok ()) initState (by decide),
   claim9_stop_semantics.2.2.1 jobT initState,
   claim9_stop_semantics.2.2.2.1 jobT "boom" initState (by decide),
   claim9_stop_semantics.2.2.2.2 jobF "boom" initState (by decide)⟩

/-- C10. `addJob` replaces a missing or zero (falsy) `maxAttempts` with
the default `3`, so every record built by `mkJob` has `maxAttempts ≥ 1`;
and the `job-failed-permanently` event emitted by `retryJob` always
carries `attempts + 1 ≥ 1` — a job is attempted at least once before it
can fail permanently. -/
theorem claim10_maxAttempts_default :
    (∀ spec freshId, (spec.maxAttempts = none ∨ spec.maxAttempts = some 0) →
       (mkJob spec freshId).maxAttempts = 3) ∧
    (∀ spec freshId, 1 ≤ (mkJob spec freshId).maxAttempts) ∧
    (∀ job e st, (retryJob job e st).events = st.events ∨
       ((retryJob job e st).events = st.events ++
          [Event.jobFailedPermanently
            { job with attempts := job.attempts + 1, lastError := some e } e] ∧
        1 ≤ job.attempts + 1)) := by
  refine ⟨?_, ?_, ?_⟩
  · intro spec freshId h
    rcases h with h | h <;> simp [mkJob, jsOrDefault, h]
  · intro spec freshId
    cases h : spec.maxAttempts with
    | none => simp [mkJob, jsOrDefault, h]
    | some m =>
        by_cases hm : m = 0 <;> simp [mkJob, jsOrDefault, h, hm]
        omega
  · intro job e st
    by_cases hlt : job.attempts + 1 < job.maxAttempts
    · left
      simp [retryJob, hlt]
    · right
      refine ⟨?_, by omega⟩
      simp [retryJob, hlt]

/-- A job description leaving `maxAttempts` unset. -/
def specNoMax : JobSpec := ⟨none, "transcription", "n-1", none, none⟩

/-- C10, witness: the default applied to the concrete description with
`maxAttempts` unset, its lower bound, and the permanent-failure shape at
the concrete final failure. -/
theorem claim10_witness :
    (mkJob specNoMax 1).maxAttempts = 3 ∧
    1 ≤ (mkJob specNoMax 1).maxAttempts ∧
    ((retryJob jobF "boom" initState).events = initState.events ∨
     ((retryJob jobF "boom" initState).events = initState.events ++
        [Event.jobFailedPermanently
          { jobF with attempts := jobF.attempts + 1, lastError := some "boom" } "boom"] ∧
      1 ≤ jobF.attempts + 1)) :=
  ⟨claim10_maxAttempts_default.1 specNoMax 1 (Or.inl rfl),
   claim10_maxAttempts_default.2.1 specNoMax 1,
   claim10_maxAttempts_default.2.2 jobF "boom" initState⟩
